import Mathlib

/-!
Verification of the WiFi-monitor core of the home-serveur repository
(src/services/wifi/{scanner, database, router}.py) against its
natural-language specification.

Embedding conventions:
* Timestamps are stored by the code as `YYYY-MM-DD HH:MM:SS` strings, whose
  lexicographic order coincides with chronological order; they are modelled
  as epoch seconds (`Nat`).  SQLite's `strftime('%s', timestamp)` is that
  same number, and `datetime(x, 'unixepoch')` its inverse.
* Latencies and packet loss are SQL `REAL`s, modelled as `ℚ`.  `NULL`able
  columns are `Option ℚ`.
* A SQL query result is a pure function of the table contents, modelled as a
  `List Sample` in insertion order; `WHERE` is `List.filter`, `ORDER BY
  timestamp ASC` is a stable sort by timestamp (ties keep insertion order),
  `GROUP BY` is explicit grouping over the deduplicated key list.
* Python's `round(x, n)` (to `n` decimal digits) is modelled with the
  mathematical half-up rounding `round`; the two differ only on exact
  half-way values, which no property below depends on.
* Python truthiness guards (`x if row['c'] else d`), which send both SQL
  `NULL` and the number 0 to the default, are modelled explicitly.
-/

namespace HomeServeur

/-- Rounding of a rational to `nd` decimal digits, the model of Python's
`round(x, nd)` and SQLite's `ROUND(x, nd)`. -/
def pyRound (nd : Nat) (q : ℚ) : ℚ := ((round (q * 10 ^ nd) : ℤ) : ℚ) / 10 ^ nd

/-- Model of `round(v, nd) if v else 0` applied to a nullable SQL value:
`NULL` and `0` both fall to the default `0`. -/
def pyRoundOrZero (nd : Nat) (o : Option ℚ) : ℚ :=
  match o with
  | none => 0
  | some v => if v = 0 then 0 else pyRound nd v

/-- Model of `round(v, nd) if v else None` applied to a nullable SQL value
(the guard used for the latency aggregates of `get_latest_stats`). -/
def pyRoundOrNone (nd : Nat) (o : Option ℚ) : Option ℚ :=
  match o with
  | none => none
  | some v => if v = 0 then none else some (pyRound nd v)

/-- SQL `AVG` over a column: `NULL` on the empty group, else the arithmetic
mean.  (Inputs are the non-`NULL` values of the group, as in SQL.) -/
def sqlAvg (l : List ℚ) : Option ℚ :=
  if l.isEmpty then none else some (l.sum / l.length)

/-- SQL `MIN` over the non-`NULL` values of a group. -/
def sqlMin (l : List ℚ) : Option ℚ :=
  match l with
  | [] => none
  | x :: xs => some (xs.foldl min x)

/-- SQL `MAX` over the non-`NULL` values of a group. -/
def sqlMax (l : List ℚ) : Option ℚ :=
  match l with
  | [] => none
  | x :: xs => some (xs.foldl max x)

/-- SQL `MAX(timestamp)` of a (nonempty) group, used for `last_seen`. -/
def natMax (l : List Nat) : Nat := l.foldr max 0

/-- The `status` column of `ping_stats`: `'success'`, `'failed'` or
`'timeout'` (scanner.py writes no other value). -/
inductive Status where
  | success
  | failed
  | timeout
deriving DecidableEq, Repr

/-- One row of the `ping_stats` table (database.py, `init_db`). -/
structure Sample where
  timestamp : Nat
  host : String
  min_latency : Option ℚ
  avg_latency : Option ℚ
  max_latency : Option ℚ
  packet_loss : ℚ
  packets_transmitted : Nat
  packets_received : Nat
  status : Status
deriving DecidableEq, Repr

/-! ### Prober (scanner.py) -/

/-- The statistics dict built by `ping_host` / `parse_ping_output`. -/
structure PingStats where
  min : Option ℚ
  avg : Option ℚ
  max : Option ℚ
  loss : ℚ
  transmitted : Nat
  received : Nat
  status : Status
deriving DecidableEq, Repr

/-- Outcome of the `subprocess.run(['ping', ...])` call in `ping_host`.  The
free-text regex matching of `parse_ping_output` is abstracted to its result:
`packetLine` is the match of the packets-transmitted/received/loss pattern,
`rttLine` the match of the rtt min/avg/max pattern, either of which may be
absent from malformed output. -/
inductive PingProcResult where
  | timedOut
  | completed (packetLine : Option (Nat × Nat × ℚ)) (rttLine : Option (ℚ × ℚ × ℚ))
      (returncode : Nat)
  | raised
deriving DecidableEq, Repr

/-- scanner.py `parse_ping_output`: defaults, then each of the two
independently matched lines fills its fields when present. -/
def parse_ping_output (packetLine : Option (Nat × Nat × ℚ))
    (rttLine : Option (ℚ × ℚ × ℚ)) (returncode : Nat) : PingStats :=
  let stats : PingStats :=
    { min := none, avg := none, max := none, loss := 100, transmitted := 0,
      received := 0,
      status := if returncode == 0 then .success else .failed }
  let stats :=
    match packetLine with
    | some (t, r, l) => { stats with transmitted := t, received := r, loss := l }
    | none => stats
  match rttLine with
  | some (mn, av, mx) => { stats with min := some mn, avg := some av, max := some mx }
  | none => stats

/-- scanner.py `ping_host`: on `subprocess.TimeoutExpired` a fixed timeout
sample is returned (never raised); on completion the output is parsed; on any
other exception `None` is returned. -/
def ping_host (count : Nat) (result : PingProcResult) : Option PingStats :=
  match result with
  | .timedOut =>
      some { min := none, avg := none, max := none, loss := 100,
             transmitted := count, received := 0, status := .timeout }
  | .completed packetLine rttLine returncode =>
      some (parse_ping_output packetLine rttLine returncode)
  | .raised => none

/-! ### Store queries (database.py) -/

/-- `cutoff = datetime.now() - timedelta(hours=hours)`, in epoch seconds. -/
def cutoff (now hours : Nat) : Nat := now - hours * 3600

/-- The `WHERE timestamp > ?` predicate of the lookback-window queries. -/
def inWindow (now hours : Nat) (r : Sample) : Bool := cutoff now hours < r.timestamp

/-- `ORDER BY timestamp ASC`: a stable sort, equal timestamps keep insertion
order. -/
def sortByTimestamp (l : List Sample) : List Sample :=
  List.insertionSort (fun a b => a.timestamp ≤ b.timestamp) l

instance : IsTotal Sample (fun a b => a.timestamp ≤ b.timestamp) :=
  ⟨fun a b => Nat.le_total a.timestamp b.timestamp⟩

instance : IsTrans Sample (fun a b => a.timestamp ≤ b.timestamp) :=
  ⟨fun _ _ _ hab hbc => le_trans hab hbc⟩

/-- The row list a lookback-window query with `ORDER BY timestamp ASC`
returns. -/
def queryWindow (now hours : Nat) (rows : List Sample) : List Sample :=
  sortByTimestamp (rows.filter (inWindow now hours))

/-- `ORDER BY host` of `get_latest_stats`. -/
def sortHosts (l : List String) : List String :=
  List.insertionSort (fun a b : String => a ≤ b) l

/-- One aggregate row of `get_latest_stats` (one per host). -/
structure HostStat where
  host : String
  avg_latency : Option ℚ
  min_latency : Option ℚ
  max_latency : Option ℚ
  packet_loss : ℚ
  uptime_percent : ℚ
  total_outages : Nat
  sample_count : Nat
  last_seen : Nat
deriving DecidableEq, Repr

/-- database.py `get_latest_stats(hours)`: per-host aggregates over the
lookback window.  `uptime_percent` counts samples with `packet_loss < 100`,
`total_outages` counts samples with `packet_loss = 100`. -/
def get_latest_stats (now hours : Nat) (rows : List Sample) : List HostStat :=
  let inw := rows.filter (inWindow now hours)
  let hosts := sortHosts (inw.map (·.host)).dedup
  hosts.map fun h =>
    let grp := inw.filter (fun r => r.host == h)
    { host := h
      avg_latency := pyRoundOrNone 3 (sqlAvg (grp.filterMap (·.avg_latency)))
      min_latency := pyRoundOrNone 3 (sqlMin (grp.filterMap (·.min_latency)))
      max_latency := pyRoundOrNone 3 (sqlMax (grp.filterMap (·.max_latency)))
      packet_loss := pyRoundOrZero 2 (sqlAvg (grp.map (·.packet_loss)))
      uptime_percent :=
        pyRound 2 (100 * ((grp.filter (fun r => r.packet_loss < 100)).length : ℚ) /
          (grp.length : ℚ))
      total_outages := (grp.filter (fun r => r.packet_loss == 100)).length
      sample_count := grp.length
      last_seen := natMax (grp.map (·.timestamp)) }

/-- One point of `get_history` / `get_aggregated_history` output. -/
structure HistoryPoint where
  timestamp : Nat
  host : String
  avg_latency : ℚ
  packet_loss : ℚ
  status : Status
deriving DecidableEq, Repr

/-- database.py `get_history(hours)`: the raw in-window rows, ascending by
timestamp, projected to history points; absent latencies become `0` through
the truthiness guard. -/
def get_history (now hours : Nat) (rows : List Sample) : List HistoryPoint :=
  (queryWindow now hours rows).map fun r =>
    { timestamp := r.timestamp
      host := r.host
      avg_latency := pyRoundOrZero 3 r.avg_latency
      packet_loss := pyRoundOrZero 1 (some r.packet_loss)
      status := r.status }

/-- The bucket key of `get_aggregated_history` and
`get_custom_period_history`: `strftime('%s',t) - strftime('%s',t) %
(intervalMinutes * 60)`. -/
def bucketOf (intervalMinutes ts : Nat) : Nat := ts - ts % (intervalMinutes * 60)

/-- `ORDER BY time_bucket ASC` over the `(time_bucket, host)` group keys:
stable sort on the bucket (the host order inside one bucket is not fixed by
the SQL; the model keeps group-discovery order there). -/
def sortBuckets (l : List (Nat × String)) : List (Nat × String) :=
  List.insertionSort (fun a b => a.1 ≤ b.1) l

/-- The grouped `SELECT` shared by `get_aggregated_history` and
`get_custom_period_history`: group the already-windowed rows by
`(time_bucket, host)`, average latency (over non-`NULL` values, as SQL `AVG`
does) and loss, and mark a bucket `timeout` when more than half its samples
are timeouts. -/
def aggregateRows (intervalMinutes : Nat) (inw : List Sample) : List HistoryPoint :=
  let keys := sortBuckets (inw.map fun r => (bucketOf intervalMinutes r.timestamp, r.host)).dedup
  keys.map fun k =>
    let grp := inw.filter fun r =>
      bucketOf intervalMinutes r.timestamp == k.1 && r.host == k.2
    { timestamp := k.1
      host := k.2
      avg_latency := pyRoundOrZero 3 (sqlAvg (grp.filterMap (·.avg_latency)))
      packet_loss := pyRoundOrZero 1 (sqlAvg (grp.map (·.packet_loss)))
      status :=
        if ((grp.filter (fun r => r.status == .timeout)).length : ℚ) / (grp.length : ℚ) >
            1 / 2
        then .timeout else .success }

/-- database.py `get_aggregated_history(hours, interval_minutes)`. -/
def get_aggregated_history (now hours intervalMinutes : Nat) (rows : List Sample) :
    List HistoryPoint :=
  aggregateRows intervalMinutes (rows.filter (inWindow now hours))

/-- The interval computation of `get_custom_period_history`:
`max(1, total_minutes // max_points)` with `total_minutes` the floored
length of the range in minutes. -/
def customInterval (startEpoch endEpoch maxPoints : Nat) : Nat :=
  max 1 ((endEpoch - startEpoch) / 60 / maxPoints)

/-- database.py `get_custom_period_history(start_date, end_date, max_points)`
with the two datetime arguments as epoch seconds; `WHERE timestamp BETWEEN ?
AND ?` is inclusive on both ends. -/
def get_custom_period_history (startEpoch endEpoch maxPoints : Nat)
    (rows : List Sample) : List HistoryPoint :=
  aggregateRows (customInterval startEpoch endEpoch maxPoints)
    (rows.filter (fun r => startEpoch ≤ r.timestamp && r.timestamp ≤ endEpoch))

/-! ### Router (router.py) -/

/-- The period table of `api_history`: period key to (hours, interval
minutes). -/
def periods : List (String × Nat × Nat) :=
  [("1", (1, 1)), ("6", (6, 30)), ("24", (24, 60)), ("168", (168, 720)),
   ("720", (720, 1440)), ("4320", (4320, 21600)), ("8760", (8760, 43200))]

/-- router.py `api_history(period)`: unknown keys are answered with the
`{"error": "Invalid period"}` response and no data; `interval == 1` selects
the raw query, every other known period the aggregated one. -/
def api_history (period : String) (now : Nat) (rows : List Sample) :
    Except String (List HistoryPoint) :=
  match (periods.find? (fun p => p.1 == period)).map (·.2) with
  | none => Except.error "Invalid period"
  | some (hours, interval) =>
      Except.ok (if interval == 1 then get_history now hours rows
                 else get_aggregated_history now hours interval rows)

/-- router.py `api_custom_history(start, end)`: the calendar dates (modelled
as day numbers, a date being midnight `d * 86400`) are expanded to
`start 00:00:00` and `end 23:59:59` and passed on with `max_points = 30`. -/
def api_custom_history (startDay endDay : Nat) (rows : List Sample) :
    List HistoryPoint :=
  get_custom_period_history (startDay * 86400) (endDay * 86400 + 86399) 30 rows

/-! ### Outage detection (database.py `get_outages`) -/

/-- The `status` field of an outage record. -/
inductive OutState where
  | ongoing
  | resolved
deriving DecidableEq, Repr

/-- One outage record of `get_outages`.  `endTime = none`, `duration = none`
and `duration_seconds = none` model the dict before `end`/`duration` are
set, and in the final output the `'En cours'` ("ongoing") sentinel of a
still-open outage. -/
structure Outage where
  host : String
  start : Nat
  endTime : Option Nat
  duration_seconds : Option Int
  duration : Option String
  status : OutState
deriving DecidableEq, Repr

/-- The down classification of `get_outages`:
`row['status'] == 'timeout' or (row['packet_loss'] and row['packet_loss'] >= 50)`
(Python truthiness: a loss of exactly 0 short-circuits to up). -/
def isDown (r : Sample) : Bool :=
  r.status == .timeout || (!(r.packet_loss == 0) && 50 ≤ r.packet_loss)

/-- The human-readable duration format of `get_outages`:
`divmod` twice, then drop the leading zero-valued units.  `Int.ediv`/`emod`
with the positive divisor 60 agree with Python's `divmod`. -/
def durationFmt (d : Int) : String :=
  let minutes := d.ediv 60
  let seconds := d.emod 60
  let hoursDur := minutes.ediv 60
  let minutes2 := minutes.emod 60
  if hoursDur > 0 then s!"{hoursDur}h {minutes2}m {seconds}s"
  else if minutes2 > 0 then s!"{minutes2}m {seconds}s"
  else s!"{seconds}s"

/-- The `current_outage` dict of `get_outages`: host to the open outage's
start, in insertion order (Python dicts preserve it), one entry per key. -/
abbrev OutageDict := List (String × Nat)

/-- Dict lookup (`host in current_outage` / `current_outage[host]`). -/
def lookupHost : OutageDict → String → Option Nat
  | [], _ => none
  | (k, v) :: rest, h => if k = h then some v else lookupHost rest h

/-- `del current_outage[host]`: remove the (unique) entry of a key. -/
def eraseHost : OutageDict → String → OutageDict
  | [], _ => []
  | (k, v) :: rest, h => if k = h then rest else (k, v) :: eraseHost rest h

/-- The record emitted when an outage of host `h` that started at `s` is
closed by an up sample at `e`: `end`, `duration_seconds` and the formatted
`duration` are filled in and `status` becomes `resolved`. -/
def resolvedOutage (h : String) (s e : Nat) : Outage :=
  { host := h, start := s, endTime := some e,
    duration_seconds := some ((e : Int) - (s : Int)),
    duration := some (durationFmt ((e : Int) - (s : Int))),
    status := .resolved }

/-- The record emitted for an outage of host `h` started at `s` and still
open when the window ends (`end`/`duration` are the `'En cours'` sentinel). -/
def ongoingOutage (h : String) (s : Nat) : Outage :=
  { host := h, start := s, endTime := none, duration_seconds := none,
    duration := none, status := .ongoing }

/-- One iteration of the scan loop of `get_outages`: a down sample opens an
outage for its host unless one is open; an up sample closes the open outage
(emitting a resolved record with its duration) and nothing else.  The
`except` arm of the duration computation (`'Unknown'`) is unreachable here:
stored timestamps always parse. -/
def outageStep (dict : OutageDict) (r : Sample) : OutageDict × List Outage :=
  if isDown r then
    match lookupHost dict r.host with
    | some _ => (dict, [])
    | none => (dict ++ [(r.host, r.timestamp)], [])
  else
    match lookupHost dict r.host with
    | none => (dict, [])
    | some s => (eraseHost dict r.host, [resolvedOutage r.host s r.timestamp])

/-- The scan loop of `get_outages` over the ordered row list: emitted
records in order, and the final `current_outage` dict. -/
def outagesAux : OutageDict → List Sample → List Outage × OutageDict
  | dict, [] => ([], dict)
  | dict, r :: rest =>
      let p := outageStep dict r
      let q := outagesAux p.1 rest
      (p.2 ++ q.1, q.2)

/-- The closing loop of `get_outages`: every host still in `current_outage`
is emitted as an ongoing outage (`end`/`duration` = `'En cours'`). -/
def finalizeOngoing (dict : OutageDict) : List Outage :=
  dict.map fun p => ongoingOutage p.1 p.2

/-- The outage detector on an already-ordered sample sequence: scan, then
close the still-open outages. -/
def detectOutages (rows : List Sample) : List Outage :=
  (outagesAux [] rows).1 ++ finalizeOngoing (outagesAux [] rows).2

/-- database.py `get_outages(hours)`: the ordered in-window rows fed to the
detector. -/
def get_outages (now hours : Nat) (rows : List Sample) : List Outage :=
  detectOutages (queryWindow now hours rows)

/-- The `current_outage` dict left after scanning the queried window: a host
with an entry is exactly one classified DOWN when the window ends. -/
def finalDict (rows : List Sample) : OutageDict := (outagesAux [] rows).2

/-- Timestamps of the samples of one host, in sequence order. -/
def hostTimes (h : String) (rows : List Sample) : List Nat :=
  (rows.filter (fun r => r.host == h)).map (·.timestamp)

/-- The outage records `get_outages` returns for one host. -/
def hostOutages (now hours : Nat) (rows : List Sample) (h : String) : List Outage :=
  (get_outages now hours rows).filter (fun o => o.host == h)

/-- The keys of the `current_outage` dict. -/
def dictKeys (dict : OutageDict) : List String := dict.map Prod.fst

/-! ### Concrete fixtures used by the closed evaluations -/

/-- A fully successful probe row (`loss = 0`). -/
def upSample (ts : Nat) (h : String) : Sample :=
  { timestamp := ts, host := h, min_latency := some 5, avg_latency := some 5,
    max_latency := some 5, packet_loss := 0, packets_transmitted := 4,
    packets_received := 4, status := .success }

/-- A probe-deadline row as `ping_host` records it (`status = timeout`). -/
def timeoutSample (ts : Nat) (h : String) : Sample :=
  { timestamp := ts, host := h, min_latency := none, avg_latency := none,
    max_latency := none, packet_loss := 100, packets_transmitted := 4,
    packets_received := 0, status := .timeout }

/-- A completed probe row with the given packet loss. -/
def lossSample (ts : Nat) (h : String) (loss : ℚ) : Sample :=
  { timestamp := ts, host := h, min_latency := some 20, avg_latency := some 20,
    max_latency := some 20, packet_loss := loss, packets_transmitted := 4,
    packets_received := 2, status := .success }

end HomeServeur

namespace HomeServeur

/-! ### Small evaluation lemmas -/

theorem pyRound_def (nd : Nat) (q : ℚ) :
    pyRound nd q = ((round (q * 10 ^ nd) : ℤ) : ℚ) / 10 ^ nd := rfl

/-! ### Claim theorems -/

/-- C6: when the probe process does not return within the overall deadline,
`ping_host` returns a sample with `status = timeout`, `packet_loss = 100`,
`packets_transmitted = count`, `packets_received = 0` and all latency fields
absent, as data rather than an error; and the parsing path can only produce
`success` or `failed`, so `timeout` marks exactly the deadline branch. -/
theorem ping_host_timeout_sample (count : Nat)
    (packetLine : Option (Nat × Nat × ℚ)) (rttLine : Option (ℚ × ℚ × ℚ))
    (rc : Nat) :
    ping_host count PingProcResult.timedOut =
      some { min := none, avg := none, max := none, loss := 100,
             transmitted := count, received := 0, status := Status.timeout } ∧
    (parse_ping_output packetLine rttLine rc).status =
      (if rc == 0 then Status.success else Status.failed) := by
  refine ⟨rfl, ?_⟩
  rcases packetLine with _ | ⟨t, r, l⟩ <;> rcases rttLine with _ | ⟨mn, av, mx⟩ <;> rfl

/-- C9: the history queries are deterministic, read-only functions of their
arguments and of the store contents: two runs against equal stores return
equal history sequences, for both the raw and the bucketed query. -/
theorem history_queries_deterministic (now hours w : Nat)
    (rows rows' : List Sample) (hsame : rows = rows') :
    get_history now hours rows = get_history now hours rows' ∧
    get_aggregated_history now hours w rows = get_aggregated_history now hours w rows' := by
  subst hsame
  exact ⟨rfl, rfl⟩

/-- Witness for C9 at a concrete store. -/
theorem history_queries_deterministic_witness :
    get_history 4000 1 [upSample 940 "R"] = get_history 4000 1 [upSample 940 "R"] ∧
    get_aggregated_history 4000 1 60 [upSample 940 "R"] =
      get_aggregated_history 4000 1 60 [upSample 940 "R"] :=
  history_queries_deterministic 4000 1 60 [upSample 940 "R"] [upSample 940 "R"] rfl

/-- C4: `api_history` maps each of the seven period keys to exactly the
lookback hours and bucket width of the fixed table (raw samples for period
1), and answers every other key with the `Invalid period` error and no
history data. -/
theorem api_history_period_table (now : Nat) (rows : List Sample) :
    api_history "1" now rows = Except.ok (get_history now 1 rows) ∧
    api_history "6" now rows = Except.ok (get_aggregated_history now 6 30 rows) ∧
    api_history "24" now rows = Except.ok (get_aggregated_history now 24 60 rows) ∧
    api_history "168" now rows = Except.ok (get_aggregated_history now 168 720 rows) ∧
    api_history "720" now rows = Except.ok (get_aggregated_history now 720 1440 rows) ∧
    api_history "4320" now rows = Except.ok (get_aggregated_history now 4320 21600 rows) ∧
    api_history "8760" now rows = Except.ok (get_aggregated_history now 8760 43200 rows) ∧
    ∀ p : String, p ∉ ["1", "6", "24", "168", "720", "4320", "8760"] →
      api_history p now rows = Except.error "Invalid period" := by
  refine ⟨rfl, rfl, rfl, rfl, rfl, rfl, rfl, ?_⟩
  intro p hp
  simp only [List.mem_cons, List.not_mem_nil, or_false, not_or] at hp
  obtain ⟨h1, h6, h24, h168, h720, h4320, h8760⟩ := hp
  have b1 : (("1" : String) == p) = false := beq_eq_false_iff_ne.mpr (Ne.symm h1)
  have b6 : (("6" : String) == p) = false := beq_eq_false_iff_ne.mpr (Ne.symm h6)
  have b24 : (("24" : String) == p) = false := beq_eq_false_iff_ne.mpr (Ne.symm h24)
  have b168 : (("168" : String) == p) = false := beq_eq_false_iff_ne.mpr (Ne.symm h168)
  have b720 : (("720" : String) == p) = false := beq_eq_false_iff_ne.mpr (Ne.symm h720)
  have b4320 : (("4320" : String) == p) = false := beq_eq_false_iff_ne.mpr (Ne.symm h4320)
  have b8760 : (("8760" : String) == p) = false := beq_eq_false_iff_ne.mpr (Ne.symm h8760)
  simp [api_history, periods, List.find?, b1, b6, b24, b168, b720, b4320, b8760]

/-- C7, scenario A: for host `R` with samples `t0 (loss 0)`, `t1 (timeout)`,
`t2 (loss 0)` and `t2 - t1 = 90` seconds, `get_outages` returns exactly one
resolved interval from `t1` to `t2` with duration `"1m 30s"`; and the
duration format writes hours, minutes and seconds with zero-valued leading
units omitted. -/
theorem detect_outages_scenario_a :
    get_outages 4500 1 [upSample 940 "R", timeoutSample 1000 "R", upSample 1090 "R"] =
      [{ host := "R", start := 1000, endTime := some 1090, duration_seconds := some 90,
         duration := some "1m 30s", status := OutState.resolved }] ∧
    durationFmt 45 = "45s" ∧ durationFmt 90 = "1m 30s" ∧ durationFmt 3723 = "1h 2m 3s" := by
  exact ⟨by decide, by decide, by decide, by decide⟩

/-- C1, counterexample: two same-host samples sharing one timestamp (ties are
allowed: per-host timestamps are only non-decreasing) produce a resolved
interval whose end equals its start, so the end is not strictly after the
start. -/
theorem outage_tie_end_equals_start :
    get_outages 3650 1 [timeoutSample 100 "A", upSample 100 "A"] =
      [{ host := "A", start := 100, endTime := some 100, duration_seconds := some 0,
         duration := some "0s", status := OutState.resolved }] ∧
    ((get_outages 3650 1 [timeoutSample 100 "A", upSample 100 "A"]).filter
      (fun o => o.status == OutState.resolved && o.endTime == some o.start)).length = 1 := by
  exact ⟨by decide, by decide⟩

/-- C3: the two query paths classify "down" with different packet-loss
thresholds.  A single sample with `status = success` and `packet_loss = 60`
is an (ongoing) outage for `get_outages` (threshold 50), while
`get_latest_stats` counts zero outage samples and 100% uptime for the same
window (threshold 100, ignoring `status`). -/
theorem threshold_divergence_eval :
    get_outages 3650 1 [lossSample 100 "A" 60] =
      [{ host := "A", start := 100, endTime := none, duration_seconds := none,
         duration := none, status := OutState.ongoing }] ∧
    get_latest_stats 3650 1 [lossSample 100 "A" 60] =
      [{ host := "A", avg_latency := some 20, min_latency := some 20,
         max_latency := some 20, packet_loss := 60, uptime_percent := 100,
         total_outages := 0, sample_count := 1, last_seen := 100 }] := by
  constructor
  · decide
  · simp [get_latest_stats, lossSample, inWindow, cutoff, sortHosts, sqlAvg, sqlMin,
      sqlMax, natMax, pyRoundOrNone, pyRoundOrZero, pyRound_def, round_eq,
      List.insertionSort, List.orderedInsert]
    norm_num [Int.floor_eq_iff]

/-! ### Lemmas on the `current_outage` dict -/

theorem lookupHost_eq_none_iff (dict : OutageDict) (h : String) :
    lookupHost dict h = none ↔ h ∉ dictKeys dict := by
  induction dict with
  | nil => simp [lookupHost, dictKeys]
  | cons p rest ih =>
    obtain ⟨k, v⟩ := p
    by_cases hk : k = h
    · subst hk
      simp [lookupHost, dictKeys]
    · simp [lookupHost, dictKeys, hk, Ne.symm hk] at ih ⊢
      exact ih

theorem lookupHost_append (d1 d2 : OutageDict) (h : String) :
    lookupHost (d1 ++ d2) h =
      match lookupHost d1 h with
      | some v => some v
      | none => lookupHost d2 h := by
  induction d1 with
  | nil => simp [lookupHost]
  | cons p rest ih =>
    obtain ⟨k, v⟩ := p
    by_cases hk : k = h
    · simp [lookupHost, hk]
    · simp [lookupHost, hk, ih]

theorem eraseHost_sublist (dict : OutageDict) (h : String) :
    (eraseHost dict h).Sublist dict := by
  induction dict with
  | nil => simp [eraseHost]
  | cons p rest ih =>
    obtain ⟨k, v⟩ := p
    by_cases hk : k = h
    · simp only [eraseHost, if_pos hk]
      exact List.sublist_cons_self (k, v) rest
    · simpa [eraseHost, hk] using ih.cons₂ (k, v)

theorem lookupHost_eraseHost_ne (dict : OutageDict) (k h : String) (hne : k ≠ h) :
    lookupHost (eraseHost dict k) h = lookupHost dict h := by
  induction dict with
  | nil => simp [eraseHost]
  | cons p rest ih =>
    obtain ⟨k1, v1⟩ := p
    by_cases hk1 : k1 = k
    · subst hk1
      simp [eraseHost, lookupHost, hne]
    · by_cases hh : k1 = h
      · subst hh
        simp [eraseHost, lookupHost, hk1]
      · simp [eraseHost, lookupHost, hk1, hh, ih]

theorem lookupHost_eraseHost_self (dict : OutageDict) (h : String)
    (hnd : (dictKeys dict).Nodup) : lookupHost (eraseHost dict h) h = none := by
  induction dict with
  | nil => simp [eraseHost, lookupHost]
  | cons p rest ih =>
    obtain ⟨k, v⟩ := p
    simp only [dictKeys, List.map_cons, List.nodup_cons] at hnd
    by_cases hk : k = h
    · subst hk
      simp only [eraseHost, if_pos rfl]
      exact (lookupHost_eq_none_iff rest k).mpr hnd.1
    · simp [eraseHost, lookupHost, hk]
      exact ih hnd.2

theorem outageStep_nodupKeys (dict : OutageDict) (r : Sample)
    (hnd : (dictKeys dict).Nodup) : (dictKeys (outageStep dict r).1).Nodup := by
  unfold outageStep
  split
  · cases hlk : lookupHost dict r.host with
    | some s => simpa using hnd
    | none =>
      have hmem : r.host ∉ dictKeys dict := (lookupHost_eq_none_iff dict r.host).mp hlk
      have hkeys : dictKeys (dict ++ [(r.host, r.timestamp)]) = dictKeys dict ++ [r.host] := by
        simp [dictKeys]
      simp only
      rw [hkeys, List.nodup_append]
      refine ⟨hnd, List.nodup_singleton _, ?_⟩
      intro a ha hb
      rw [List.mem_singleton] at hb
      exact hmem (hb ▸ ha)
  · cases hlk : lookupHost dict r.host with
    | none => simpa using hnd
    | some s =>
      simp only
      exact hnd.sublist (List.Sublist.map Prod.fst (eraseHost_sublist dict r.host))

theorem outagesAux_nodupKeys (rows : List Sample) :
    ∀ dict : OutageDict, (dictKeys dict).Nodup →
      (dictKeys (outagesAux dict rows).2).Nodup := by
  induction rows with
  | nil => intro dict hnd; simpa [outagesAux] using hnd
  | cons r rest ih =>
    intro dict hnd
    exact ih (outageStep dict r).1 (outageStep_nodupKeys dict r hnd)

theorem outageStep_out_resolved (dict : OutageDict) (r : Sample) :
    ∀ o ∈ (outageStep dict r).2, o.status = OutState.resolved := by
  unfold outageStep
  split
  · cases lookupHost dict r.host <;> simp
  · cases lookupHost dict r.host <;> simp [resolvedOutage]

theorem outagesAux_out_resolved (rows : List Sample) :
    ∀ (dict : OutageDict), ∀ o ∈ (outagesAux dict rows).1,
      o.status = OutState.resolved := by
  induction rows with
  | nil => intro dict o ho; simp [outagesAux] at ho
  | cons r rest ih =>
    intro dict o ho
    have hsplit : (outagesAux dict (r :: rest)).1 =
        (outageStep dict r).2 ++ (outagesAux (outageStep dict r).1 rest).1 := rfl
    rw [hsplit, List.mem_append] at ho
    rcases ho with ho | ho
    · exact outageStep_out_resolved dict r o ho
    · exact ih (outageStep dict r).1 o ho

theorem finalizeOngoing_cons (k : String) (v : Nat) (rest : OutageDict) :
    finalizeOngoing ((k, v) :: rest) = ongoingOutage k v :: finalizeOngoing rest := rfl

theorem finalize_filter_ongoing (h : String) (dict : OutageDict)
    (hnd : (dictKeys dict).Nodup) :
    (finalizeOngoing dict).filter
        (fun o => o.host == h && o.status == OutState.ongoing) =
      match lookupHost dict h with
      | some s => [ongoingOutage h s]
      | none => [] := by
  induction dict with
  | nil => simp [finalizeOngoing, lookupHost]
  | cons p rest ih =>
    obtain ⟨k, v⟩ := p
    simp only [dictKeys, List.map_cons, List.nodup_cons] at hnd
    have htail := ih hnd.2
    rw [finalizeOngoing_cons, List.filter_cons]
    by_cases hk : k = h
    · subst hk
      have hrest : lookupHost rest k = none := (lookupHost_eq_none_iff rest k).mpr hnd.1
      have htail2 : (finalizeOngoing rest).filter
          (fun o => o.host == k && o.status == OutState.ongoing) = [] := by
        rw [htail, hrest]
      simp [lookupHost, htail2, ongoingOutage]
    · have hkf : (k == h) = false := beq_eq_false_iff_ne.mpr hk
      simp only [lookupHost, if_neg hk, ongoingOutage, hkf, Bool.false_and,
        Bool.false_eq_true, if_false]
      exact htail

/-! ### Per-host behaviour of the outage scan -/

theorem hostTimes_cons_host (h : String) (r : Sample) (rest : List Sample)
    (hrh : r.host = h) :
    hostTimes h (r :: rest) = r.timestamp :: hostTimes h rest := by
  simp [hostTimes, List.filter_cons, hrh]

theorem hostTimes_cons_ne (h : String) (r : Sample) (rest : List Sample)
    (hrh : ¬r.host = h) :
    hostTimes h (r :: rest) = hostTimes h rest := by
  simp [hostTimes, List.filter_cons, hrh]

theorem mem_hostTimes (h : String) (rows : List Sample) (r : Sample)
    (hr : r ∈ rows) (hrh : r.host = h) : r.timestamp ∈ hostTimes h rows := by
  simp only [hostTimes, List.mem_map]
  exact ⟨r, List.mem_filter.mpr ⟨hr, by simp [hrh]⟩, rfl⟩

theorem outageStep_other (dict : OutageDict) (r : Sample) (h : String)
    (hrh : ¬r.host = h) :
    (outageStep dict r).2.filter (fun o => o.host == h) = [] ∧
    lookupHost (outageStep dict r).1 h = lookupHost dict h := by
  unfold outageStep
  split
  · cases hlk : lookupHost dict r.host with
    | some s => exact ⟨rfl, rfl⟩
    | none =>
      refine ⟨rfl, ?_⟩
      simp only
      rw [lookupHost_append]
      cases hdh : lookupHost dict h with
      | some v => rfl
      | none => simp [lookupHost, hrh]
  · cases hlk : lookupHost dict r.host with
    | none => exact ⟨rfl, rfl⟩
    | some s =>
      refine ⟨?_, lookupHost_eraseHost_ne dict r.host h hrh⟩
      simp [resolvedOutage, hrh]

/-- The five-part invariant of the scan loop, for one host `h`, assuming that
the timestamps of `h`'s samples in the remaining input are strictly
increasing and that an already-open outage of `h` starts before all of them:
the emitted records of `h` are separated (each ends before the next starts),
all resolved with end strictly after start, they all end before the start of
the outage left open at the end of the scan, and every start is either the
initially-open start or one of `h`'s sample times. -/
theorem outagesAux_host_invariant (h : String) (rows : List Sample) :
    ∀ dict : OutageDict,
      (dictKeys dict).Nodup →
      (hostTimes h rows).Pairwise (· < ·) →
      (∀ s, lookupHost dict h = some s → ∀ r ∈ rows, r.host = h → s < r.timestamp) →
      (((outagesAux dict rows).1.filter (fun o => o.host == h)).Pairwise
          (fun a b => ∃ e, a.endTime = some e ∧ e < b.start) ∧
       (∀ o ∈ (outagesAux dict rows).1.filter (fun o => o.host == h),
          o.status = OutState.resolved ∧ ∃ e, o.endTime = some e ∧ o.start < e) ∧
       (∀ t, lookupHost (outagesAux dict rows).2 h = some t →
          ∀ o ∈ (outagesAux dict rows).1.filter (fun o => o.host == h),
            ∃ e, o.endTime = some e ∧ e < t) ∧
       (∀ o ∈ (outagesAux dict rows).1.filter (fun o => o.host == h),
          (∃ s0, lookupHost dict h = some s0 ∧ o.start = s0) ∨
            o.start ∈ hostTimes h rows) ∧
       (∀ t, lookupHost (outagesAux dict rows).2 h = some t →
          (∃ s0, lookupHost dict h = some s0 ∧ t = s0) ∨ t ∈ hostTimes h rows)) := by
  induction rows with
  | nil =>
    intro dict hnd hdistinct hdict
    refine ⟨by simp [outagesAux], by simp [outagesAux], ?_, by simp [outagesAux], ?_⟩
    · intro t ht o ho
      simp [outagesAux] at ho
    · intro t ht
      exact Or.inl ⟨t, by simpa [outagesAux] using ht, rfl⟩
  | cons r rest ih =>
    intro dict hnd hdistinct hdict
    have hsplit1 : (outagesAux dict (r :: rest)).1 =
        (outageStep dict r).2 ++ (outagesAux (outageStep dict r).1 rest).1 := rfl
    have hsplit2 : (outagesAux dict (r :: rest)).2 =
        (outagesAux (outageStep dict r).1 rest).2 := rfl
    have hnd' : (dictKeys (outageStep dict r).1).Nodup := outageStep_nodupKeys dict r hnd
    by_cases hrh : r.host = h
    · rw [hostTimes_cons_host h r rest hrh] at hdistinct
      obtain ⟨hhead, htail⟩ := List.pairwise_cons.mp hdistinct
      by_cases hdn : isDown r = true
      · cases hlk : lookupHost dict r.host with
        | some s =>
          have hstep1 : (outageStep dict r).1 = dict := by
            simp [outageStep, hdn, hlk]
          have hstep2 : (outageStep dict r).2 = [] := by
            simp [outageStep, hdn, hlk]
          have hdict2 : ∀ s2, lookupHost dict h = some s2 →
              ∀ r2 ∈ rest, r2.host = h → s2 < r2.timestamp :=
            fun s2 hs2 r2 hr2 hh2 => hdict s2 hs2 r2 (List.mem_cons_of_mem r hr2) hh2
          obtain ⟨c1, c2, c3, c4, c5⟩ := ih dict hnd htail hdict2
          rw [hsplit1, hsplit2, hstep1, hstep2, List.nil_append]
          refine ⟨c1, c2, c3, ?_, ?_⟩
          · intro o ho
            rcases c4 o ho with hl | hr2
            · exact Or.inl hl
            · rw [hostTimes_cons_host h r rest hrh]
              exact Or.inr (List.mem_cons_of_mem _ hr2)
          · intro t ht
            rcases c5 t ht with hl | hr2
            · exact Or.inl hl
            · rw [hostTimes_cons_host h r rest hrh]
              exact Or.inr (List.mem_cons_of_mem _ hr2)
        | none =>
          have hstep1 : (outageStep dict r).1 = dict ++ [(r.host, r.timestamp)] := by
            simp [outageStep, hdn, hlk]
          have hstep2 : (outageStep dict r).2 = [] := by
            simp [outageStep, hdn, hlk]
          have hlkh : lookupHost dict h = none := by rw [← hrh]; exact hlk
          have hlookup2 : lookupHost (dict ++ [(r.host, r.timestamp)]) h =
              some r.timestamp := by
            rw [lookupHost_append, hlkh]
            simp [lookupHost, hrh]
          have hdict2 : ∀ s2, lookupHost (dict ++ [(r.host, r.timestamp)]) h = some s2 →
              ∀ r2 ∈ rest, r2.host = h → s2 < r2.timestamp := by
            intro s2 hs2 r2 hr2 hh2
            rw [hlookup2] at hs2
            injection hs2 with hs2
            subst hs2
            exact hhead _ (mem_hostTimes h rest r2 hr2 hh2)
          obtain ⟨c1, c2, c3, c4, c5⟩ :=
            ih (dict ++ [(r.host, r.timestamp)]) (hstep1 ▸ hnd') htail hdict2
          rw [hsplit1, hsplit2, hstep1, hstep2, List.nil_append]
          refine ⟨c1, c2, c3, ?_, ?_⟩
          · intro o ho
            rw [hostTimes_cons_host h r rest hrh]
            rcases c4 o ho with ⟨s0, hs0, hos⟩ | hr2
            · rw [hlookup2] at hs0
              injection hs0 with hs0
              exact Or.inr (by rw [hos, ← hs0]; exact List.mem_cons_self _ _)
            · exact Or.inr (List.mem_cons_of_mem _ hr2)
          · intro t ht
            rw [hostTimes_cons_host h r rest hrh]
            rcases c5 t ht with ⟨s0, hs0, hts⟩ | hr2
            · rw [hlookup2] at hs0
              injection hs0 with hs0
              exact Or.inr (by rw [hts, ← hs0]; exact List.mem_cons_self _ _)
            · exact Or.inr (List.mem_cons_of_mem _ hr2)
      · cases hlk : lookupHost dict r.host with
        | none =>
          have hstep1 : (outageStep dict r).1 = dict := by
            simp [outageStep, hdn, hlk]
          have hstep2 : (outageStep dict r).2 = [] := by
            simp [outageStep, hdn, hlk]
          have hlkh : lookupHost dict h = none := by rw [← hrh]; exact hlk
          have hdict2 : ∀ s2, lookupHost dict h = some s2 →
              ∀ r2 ∈ rest, r2.host = h → s2 < r2.timestamp := by
            intro s2 hs2
            rw [hlkh] at hs2
            exact absurd hs2 (by simp)
          obtain ⟨c1, c2, c3, c4, c5⟩ := ih dict hnd htail hdict2
          rw [hsplit1, hsplit2, hstep1, hstep2, List.nil_append]
          refine ⟨c1, c2, c3, ?_, ?_⟩
          · intro o ho
            rcases c4 o ho with hl | hr2
            · exact Or.inl hl
            · rw [hostTimes_cons_host h r rest hrh]
              exact Or.inr (List.mem_cons_of_mem _ hr2)
          · intro t ht
            rcases c5 t ht with hl | hr2
            · exact Or.inl hl
            · rw [hostTimes_cons_host h r rest hrh]
              exact Or.inr (List.mem_cons_of_mem _ hr2)
        | some s =>
          have hstep1 : (outageStep dict r).1 = eraseHost dict r.host := by
            simp [outageStep, hdn, hlk]
          have hstep2 : (outageStep dict r).2 = [resolvedOutage r.host s r.timestamp] := by
            simp [outageStep, hdn, hlk]
          have hlkh : lookupHost dict h = some s := by rw [← hrh]; exact hlk
          have hlookup2 : lookupHost (eraseHost dict r.host) h = none := by
            rw [hrh]
            exact lookupHost_eraseHost_self dict h hnd
          have hdict2 : ∀ s2, lookupHost (eraseHost dict r.host) h = some s2 →
              ∀ r2 ∈ rest, r2.host = h → s2 < r2.timestamp := by
            intro s2 hs2
            rw [hlookup2] at hs2
            exact absurd hs2 (by simp)
          obtain ⟨c1, c2, c3, c4, c5⟩ :=
            ih (eraseHost dict r.host) (hstep1 ▸ hnd') htail hdict2
          have hsr : s < r.timestamp :=
            hdict s hlkh r (List.mem_cons_self r rest) hrh
          have hstarts : ∀ o ∈ (outagesAux (eraseHost dict r.host) rest).1.filter
              (fun o => o.host == h), r.timestamp < o.start := by
            intro o ho
            rcases c4 o ho with ⟨s0, hs0, _⟩ | hr2
            · rw [hlookup2] at hs0
              exact absurd hs0 (by simp)
            · exact hhead _ hr2
          rw [hsplit1, hsplit2, hstep1, hstep2, List.filter_append]
          have hsingle : ([resolvedOutage r.host s r.timestamp] : List Outage).filter
              (fun o => o.host == h) = [resolvedOutage r.host s r.timestamp] := by
            simp [resolvedOutage, hrh]
          rw [hsingle, List.singleton_append]
          refine ⟨?_, ?_, ?_, ?_, ?_⟩
          · refine List.pairwise_cons.mpr ⟨?_, c1⟩
            intro b hb
            exact ⟨r.timestamp, rfl, hstarts b hb⟩
          · intro o ho
            rcases List.mem_cons.mp ho with ho | ho
            · subst ho
              exact ⟨rfl, r.timestamp, rfl, hsr⟩
            · exact c2 o ho
          · intro t ht o ho
            rcases List.mem_cons.mp ho with ho | ho
            · subst ho
              refine ⟨r.timestamp, rfl, ?_⟩
              rcases c5 t ht with ⟨s0, hs0, _⟩ | hr2
              · rw [hlookup2] at hs0
                exact absurd hs0 (by simp)
              · exact hhead _ hr2
            · exact c3 t ht o ho
          · intro o ho
            rcases List.mem_cons.mp ho with ho | ho
            · subst ho
              exact Or.inl ⟨s, hlkh, rfl⟩
            · rcases c4 o ho with ⟨s0, hs0, _⟩ | hr2
              · rw [hlookup2] at hs0
                exact absurd hs0 (by simp)
              · rw [hostTimes_cons_host h r rest hrh]
                exact Or.inr (List.mem_cons_of_mem _ hr2)
          · intro t ht
            rcases c5 t ht with ⟨s0, hs0, _⟩ | hr2
            · rw [hlookup2] at hs0
              exact absurd hs0 (by simp)
            · rw [hostTimes_cons_host h r rest hrh]
              exact Or.inr (List.mem_cons_of_mem _ hr2)
    · obtain ⟨hstep_empty, hstep_lookup⟩ := outageStep_other dict r h hrh
      have htimes : hostTimes h (r :: rest) = hostTimes h rest :=
        hostTimes_cons_ne h r rest hrh
      rw [htimes] at hdistinct
      have hdict2 : ∀ s2, lookupHost (outageStep dict r).1 h = some s2 →
          ∀ r2 ∈ rest, r2.host = h → s2 < r2.timestamp := by
        intro s2 hs2 r2 hr2 hh2
        rw [hstep_lookup] at hs2
        exact hdict s2 hs2 r2 (List.mem_cons_of_mem r hr2) hh2
      obtain ⟨c1, c2, c3, c4, c5⟩ := ih (outageStep dict r).1 hnd' hdistinct hdict2
      have hfilter : (outagesAux dict (r :: rest)).1.filter (fun o => o.host == h) =
          (outagesAux (outageStep dict r).1 rest).1.filter (fun o => o.host == h) := by
        rw [hsplit1, List.filter_append, hstep_empty, List.nil_append]
      rw [hfilter, hsplit2, htimes]
      refine ⟨c1, c2, c3, ?_, ?_⟩
      · intro o ho
        rcases c4 o ho with ⟨s0, hs0, hos⟩ | hr2
        · rw [hstep_lookup] at hs0
          exact Or.inl ⟨s0, hs0, hos⟩
        · exact Or.inr hr2
      · intro t ht
        rcases c5 t ht with ⟨s0, hs0, hts⟩ | hr2
        · rw [hstep_lookup] at hs0
          exact Or.inl ⟨s0, hs0, hts⟩
        · exact Or.inr hr2

theorem hostTimes_queryWindow_strict (now hours : Nat) (rows : List Sample)
    (h : String)
    (hdist : (hostTimes h (rows.filter (inWindow now hours))).Pairwise (· ≠ ·)) :
    (hostTimes h (queryWindow now hours rows)).Pairwise (· < ·) := by
  have hperm : List.Perm (queryWindow now hours rows) (rows.filter (inWindow now hours)) :=
    List.perm_insertionSort _ _
  have hsorted := List.sorted_insertionSort (fun a b : Sample => a.timestamp ≤ b.timestamp)
    (rows.filter (inWindow now hours))
  have hle : (hostTimes h (queryWindow now hours rows)).Pairwise (· ≤ ·) := by
    unfold hostTimes queryWindow sortByTimestamp
    rw [List.pairwise_map]
    exact List.Pairwise.sublist (List.filter_sublist _) hsorted
  have hne2 : (hostTimes h (queryWindow now hours rows)).Pairwise (· ≠ ·) := by
    have hp2 : List.Perm (hostTimes h (queryWindow now hours rows))
        (hostTimes h (rows.filter (inWindow now hours))) :=
      List.Perm.map _ (List.Perm.filter _ hperm)
    exact (hp2.pairwise_iff fun hab => hab.symm).mpr hdist
  exact (hle.and hne2).imp fun hab => lt_of_le_of_ne hab.1 hab.2

theorem finalizeOngoing_status (dict : OutageDict) :
    ∀ o ∈ finalizeOngoing dict, o.status = OutState.ongoing := by
  intro o ho
  simp only [finalizeOngoing, List.mem_map] at ho
  obtain ⟨p, _, hp⟩ := ho
  rw [← hp]
  rfl

/-- C1 (amended): assuming each host's in-window timestamps are pairwise
distinct, the intervals `get_outages` returns for that host are ordered
strictly ascending by start, pairwise disjoint (each interval ends strictly
before the next starts, so at most the last one is ongoing), and every
resolved interval ends strictly after its start. -/
theorem outages_disjoint_ordered_of_distinct_times (now hours : Nat)
    (rows : List Sample) (h : String)
    (hdist : (hostTimes h (rows.filter (inWindow now hours))).Pairwise (· ≠ ·)) :
    (hostOutages now hours rows h).Pairwise (fun a b => a.start < b.start) ∧
    (hostOutages now hours rows h).Pairwise
      (fun a b => ∃ e, a.endTime = some e ∧ e < b.start) ∧
    ∀ o ∈ hostOutages now hours rows h, o.status = OutState.resolved →
      ∃ e, o.endTime = some e ∧ o.start < e := by
  have hstrict := hostTimes_queryWindow_strict now hours rows h hdist
  obtain ⟨c1, c2, c3, c4, c5⟩ :=
    outagesAux_host_invariant h (queryWindow now hours rows) [] (by simp [dictKeys])
      hstrict (by intro s hs; simp [lookupHost] at hs)
  have hnd : (dictKeys (outagesAux [] (queryWindow now hours rows)).2).Nodup :=
    outagesAux_nodupKeys _ [] (by simp [dictKeys])
  have hsplit : hostOutages now hours rows h =
      (outagesAux [] (queryWindow now hours rows)).1.filter (fun o => o.host == h) ++
      (finalizeOngoing (outagesAux [] (queryWindow now hours rows)).2).filter
        (fun o => o.host == h) := by
    unfold hostOutages get_outages detectOutages
    rw [List.filter_append]
  have hfeq : (finalizeOngoing (outagesAux [] (queryWindow now hours rows)).2).filter
        (fun o => o.host == h) =
      (finalizeOngoing (outagesAux [] (queryWindow now hours rows)).2).filter
        (fun o => o.host == h && o.status == OutState.ongoing) := by
    apply List.filter_congr
    intro o ho
    rw [finalizeOngoing_status _ o ho]
    simp
  have hLstart : ((outagesAux [] (queryWindow now hours rows)).1.filter
      (fun o => o.host == h)).Pairwise (fun a b => a.start < b.start) := by
    refine List.Pairwise.imp_of_mem ?_ c1
    intro a b ha _ hr
    obtain ⟨e, hae, helt⟩ := hr
    obtain ⟨_, e2, hae2, hlt2⟩ := c2 a ha
    rw [hae] at hae2
    injection hae2 with hae2
    rw [← hae2] at hlt2
    exact lt_trans hlt2 helt
  rw [hsplit, hfeq, finalize_filter_ongoing h _ hnd]
  cases hfd : lookupHost (outagesAux [] (queryWindow now hours rows)).2 h with
  | none =>
    rw [List.append_nil]
    exact ⟨hLstart, c1, fun o ho hres => (c2 o ho).2⟩
  | some t =>
    refine ⟨?_, ?_, ?_⟩
    · rw [List.pairwise_append]
      refine ⟨hLstart, List.pairwise_singleton _ _, ?_⟩
      intro a ha b hb
      rw [List.mem_singleton] at hb
      subst hb
      obtain ⟨_, e2, hae2, hlt2⟩ := c2 a ha
      obtain ⟨e3, hae3, hlt3⟩ := c3 t hfd a ha
      rw [hae2] at hae3
      injection hae3 with hae3
      rw [← hae3] at hlt3
      exact lt_trans hlt2 hlt3
    · rw [List.pairwise_append]
      refine ⟨c1, List.pairwise_singleton _ _, ?_⟩
      intro a ha b hb
      rw [List.mem_singleton] at hb
      subst hb
      exact c3 t hfd a ha
    · intro o ho hres
      rw [List.mem_append] at ho
      rcases ho with ho | ho
      · exact (c2 o ho).2
      · rw [List.mem_singleton] at ho
        subst ho
        simp [ongoingOutage] at hres

/-- Witness for C1 at the scenario input: distinct per-host timestamps, and
the per-host interval list is well-ordered. -/
theorem outages_disjoint_ordered_witness :
    (hostOutages 4500 1 [upSample 940 "R", timeoutSample 1000 "R", upSample 1090 "R"]
        "R").Pairwise (fun a b => a.start < b.start) ∧
    (hostOutages 4500 1 [upSample 940 "R", timeoutSample 1000 "R", upSample 1090 "R"]
        "R").Pairwise (fun a b => ∃ e, a.endTime = some e ∧ e < b.start) ∧
    ∀ o ∈ hostOutages 4500 1 [upSample 940 "R", timeoutSample 1000 "R", upSample 1090 "R"]
        "R", o.status = OutState.resolved → ∃ e, o.endTime = some e ∧ o.start < e :=
  outages_disjoint_ordered_of_distinct_times 4500 1
    [upSample 940 "R", timeoutSample 1000 "R", upSample 1090 "R"] "R" (by decide)

/-- C2: a host still classified DOWN when the queried window ends is reported
by `get_outages` with exactly one ongoing interval, whose start is the open
outage's start and whose end and duration carry the ongoing sentinel
(`'En cours'`, the spec's `"ongoing"`), with state ongoing. -/
theorem ongoing_outage_unique (now hours : Nat) (rows : List Sample) (h : String)
    (s : Nat)
    (hdown : lookupHost (finalDict (queryWindow now hours rows)) h = some s) :
    (get_outages now hours rows).filter
        (fun o => o.host == h && o.status == OutState.ongoing) =
      [{ host := h, start := s, endTime := none, duration_seconds := none,
         duration := none, status := OutState.ongoing }] := by
  unfold get_outages detectOutages
  rw [List.filter_append]
  have h1 : ((outagesAux [] (queryWindow now hours rows)).1.filter
      (fun o => o.host == h && o.status == OutState.ongoing)) = [] := by
    rw [List.filter_eq_nil_iff]
    intro o ho
    have := outagesAux_out_resolved (queryWindow now hours rows) [] o ho
    simp [this]
  have hnd : (dictKeys (outagesAux [] (queryWindow now hours rows)).2).Nodup :=
    outagesAux_nodupKeys (queryWindow now hours rows) [] (by simp [dictKeys])
  have h2 := finalize_filter_ongoing h (outagesAux [] (queryWindow now hours rows)).2 hnd
  unfold finalDict at hdown
  rw [hdown] at h2
  rw [h1, h2]
  simp [ongoingOutage]

/-- Witness for C2: a single timeout sample leaves its host DOWN at the end
of the window, and exactly one ongoing interval is reported. -/
theorem ongoing_outage_unique_witness :
    (get_outages 4500 1 [timeoutSample 1000 "B"]).filter
        (fun o => o.host == "B" && o.status == OutState.ongoing) =
      [{ host := "B", start := 1000, endTime := none, duration_seconds := none,
         duration := none, status := OutState.ongoing }] :=
  ongoing_outage_unique 4500 1 [timeoutSample 1000 "B"] "B" 1000 (by decide)

/-! ### Bucketing (C5) -/

theorem bucketOf_eq (w ts : Nat) : bucketOf w ts = ts / (w * 60) * (w * 60) := by
  unfold bucketOf
  have h := Nat.div_add_mod ts (w * 60)
  have h2 : ts / (w * 60) * (w * 60) = w * 60 * (ts / (w * 60)) := Nat.mul_comm _ _
  rw [h2]
  omega

theorem mem_bucketKeys_origin (m : Nat) (inw : List Sample) (k : Nat × String)
    (hk : k ∈ sortBuckets ((inw.map fun r => (bucketOf m r.timestamp, r.host)).dedup)) :
    ∃ r ∈ inw, k = (bucketOf m r.timestamp, r.host) := by
  unfold sortBuckets at hk
  have hk2 := (List.perm_insertionSort (fun a b : Nat × String => a.1 ≤ b.1) _).mem_iff.mp hk
  rw [List.mem_dedup] at hk2
  simp only [List.mem_map] at hk2
  obtain ⟨r, hr, hkr⟩ := hk2
  exact ⟨r, hr, hkr.symm⟩

/-- C5: every point of the bucketed history carries, as its timestamp, the
bucket key `floor(sample_epoch / (w * 60)) * (w * 60)` of an in-window
sample — left-aligned fixed-width bins anchored at the Unix epoch (the bucket
function does not depend on the query's start time). -/
theorem history_bucket_epoch_aligned (now hours w : Nat) (rows : List Sample)
    (hp : HistoryPoint) (hmem : hp ∈ get_aggregated_history now hours w rows) :
    (∃ r ∈ rows, inWindow now hours r = true ∧
      hp.timestamp = r.timestamp / (w * 60) * (w * 60)) ∧
    ∀ ts, bucketOf w ts = ts / (w * 60) * (w * 60) := by
  refine ⟨?_, fun ts => bucketOf_eq w ts⟩
  unfold get_aggregated_history aggregateRows at hmem
  rw [List.mem_map] at hmem
  obtain ⟨k, hk, heq⟩ := hmem
  obtain ⟨r, hr, hkr⟩ := mem_bucketKeys_origin w (rows.filter (inWindow now hours)) k hk
  rw [List.mem_filter] at hr
  refine ⟨r, hr.1, hr.2, ?_⟩
  have hts : hp.timestamp = k.1 := by rw [← heq]
  rw [hts, hkr]
  exact bucketOf_eq w r.timestamp

/-- Witness for C5 at a one-sample store: the single bucket starts at epoch
second 0. -/
theorem history_bucket_epoch_aligned_witness :
    (∃ r ∈ [upSample 100 "A"], inWindow 3650 1 r = true ∧
      (0 : Nat) = r.timestamp / (60 * 60) * (60 * 60)) ∧
    ∀ ts, bucketOf 60 ts = ts / (60 * 60) * (60 * 60) :=
  history_bucket_epoch_aligned 3650 1 60 [upSample 100 "A"]
    { timestamp := 0, host := "A", avg_latency := 5, packet_loss := 0,
      status := Status.success }
    (by
      have hlist : get_aggregated_history 3650 1 60 [upSample 100 "A"] =
          [{ timestamp := 0, host := "A", avg_latency := 5, packet_loss := 0,
             status := Status.success }] := by
        simp [get_aggregated_history, aggregateRows, sortBuckets, bucketOf, inWindow,
          cutoff, upSample, sqlAvg, pyRoundOrZero, pyRound_def, round_eq,
          List.insertionSort, List.orderedInsert]
        norm_num
      rw [hlist]
      exact List.mem_singleton.mpr rfl)

/-! ### Absent latencies at the query interface (C10) -/

/-- C10, counterexample: in a bucket mixing a sample with absent latency and
one with latency 5, SQL `AVG` ignores the absent value, so the bucketed
history reports 5 for that bucket and returns no point with `avg_latency`
0 at all, although an in-window stored sample has an absent latency. -/
theorem aggregated_mixed_bucket_latency :
    get_aggregated_history 3650 1 60 [timeoutSample 100 "A", upSample 110 "A"] =
      [{ timestamp := 0, host := "A", avg_latency := 5, packet_loss := 50,
         status := Status.success }] ∧
    (timeoutSample 100 "A").avg_latency = none ∧
    inWindow 3650 1 (timeoutSample 100 "A") = true ∧
    ((get_aggregated_history 3650 1 60 [timeoutSample 100 "A", upSample 110 "A"]).filter
      (fun hp => hp.avg_latency == 0)).length = 0 := by
  have hlist : get_aggregated_history 3650 1 60 [timeoutSample 100 "A", upSample 110 "A"] =
      [{ timestamp := 0, host := "A", avg_latency := 5, packet_loss := 50,
         status := Status.success }] := by
    simp [get_aggregated_history, aggregateRows, sortBuckets, bucketOf, inWindow,
      cutoff, upSample, timeoutSample, sqlAvg, pyRoundOrZero, pyRound_def, round_eq,
      List.insertionSort, List.orderedInsert]
    norm_num
  refine ⟨hlist, rfl, by decide, ?_⟩
  rw [hlist]
  norm_num

theorem pyRound_at_zero (nd : Nat) : pyRound nd 0 = 0 := by
  simp [pyRound]

theorem sqlAvg_eq_none_iff (l : List ℚ) : sqlAvg l = none ↔ l = [] := by
  unfold sqlAvg
  split
  next hemp => simp [List.isEmpty_iff.mp hemp]
  next hemp =>
    rw [List.isEmpty_iff] at hemp
    simp [hemp]

/-- C10 (amended): the raw history query returns, for every in-window sample
with absent `avg_latency`, that sample's point with `avg_latency = 0` (so 0
is indistinguishable from a measured 0 ms at this interface); and a bucketed
history point reports `avg_latency = 0` exactly when either every sample of
its own bucket has an absent latency (`AVG` over no non-`NULL` values is
`NULL`, sent to 0 by the truthiness guard) or the mean of the bucket's
measured latencies itself rounds to 0 at three decimals — so 0 conflates an
all-absent bucket with a measured zero mean. -/
theorem absent_latency_reported_zero (now hours w : Nat) (rows : List Sample)
    (r : Sample) (hr : r ∈ rows) (hw : inWindow now hours r = true)
    (hnone : r.avg_latency = none) :
    ({ timestamp := r.timestamp, host := r.host, avg_latency := 0,
       packet_loss := pyRoundOrZero 1 (some r.packet_loss), status := r.status } :
        HistoryPoint) ∈ get_history now hours rows ∧
    ∀ hp ∈ get_aggregated_history now hours w rows,
      (hp.avg_latency = 0 ↔
        (∀ s ∈ (rows.filter (inWindow now hours)).filter
            (fun s2 => bucketOf w s2.timestamp == hp.timestamp && s2.host == hp.host),
          s.avg_latency = none) ∨
        ∃ m, sqlAvg (((rows.filter (inWindow now hours)).filter
            (fun s2 => bucketOf w s2.timestamp == hp.timestamp && s2.host == hp.host)).filterMap
            (·.avg_latency)) = some m ∧ pyRound 3 m = 0) := by
  constructor
  · unfold get_history queryWindow sortByTimestamp
    rw [List.mem_map]
    refine ⟨r, ?_, ?_⟩
    · exact (List.perm_insertionSort _ _).mem_iff.mpr (List.mem_filter.mpr ⟨hr, hw⟩)
    · simp [hnone, pyRoundOrZero]
  · intro hp hmem
    unfold get_aggregated_history aggregateRows at hmem
    rw [List.mem_map] at hmem
    obtain ⟨k, hk, heq⟩ := hmem
    subst heq
    dsimp only
    cases hA : sqlAvg (((rows.filter (inWindow now hours)).filter
        (fun s2 => bucketOf w s2.timestamp == k.1 && s2.host == k.2)).filterMap
        (·.avg_latency)) with
    | none =>
      have hempty : (((rows.filter (inWindow now hours)).filter
          (fun s2 => bucketOf w s2.timestamp == k.1 && s2.host == k.2)).filterMap
          (·.avg_latency)) = [] := (sqlAvg_eq_none_iff _).mp hA
      have hall : ∀ s ∈ (rows.filter (inWindow now hours)).filter
          (fun s2 => bucketOf w s2.timestamp == k.1 && s2.host == k.2),
          s.avg_latency = none := List.filterMap_eq_nil_iff.mp hempty
      exact iff_of_true rfl (Or.inl hall)
    | some m =>
      constructor
      · intro h0
        refine Or.inr ⟨m, rfl, ?_⟩
        by_cases hm : m = 0
        · rw [hm]
          exact pyRound_at_zero 3
        · simpa [pyRoundOrZero, hm] using h0
      · intro hOr
        rcases hOr with hall | ⟨m2, hm2, hr2⟩
        · exfalso
          have hempty : (((rows.filter (inWindow now hours)).filter
              (fun s2 => bucketOf w s2.timestamp == k.1 && s2.host == k.2)).filterMap
              (·.avg_latency)) = [] := List.filterMap_eq_nil_iff.mpr hall
          rw [hempty] at hA
          simp [sqlAvg] at hA
        · injection hm2 with hm2e
          subst hm2e
          by_cases hm : m = 0
          · simp [pyRoundOrZero, hm]
          · simp [pyRoundOrZero, hm, hr2]

/-- Witness for C10 at a one-sample store whose sample has no latency: the
raw point carries latency 0, and the single (all-absent) bucket satisfies
the zero-latency characterization. -/
theorem absent_latency_reported_zero_witness :
    ({ timestamp := (timeoutSample 100 "A").timestamp,
       host := (timeoutSample 100 "A").host, avg_latency := 0,
       packet_loss := pyRoundOrZero 1 (some (timeoutSample 100 "A").packet_loss),
       status := (timeoutSample 100 "A").status } : HistoryPoint) ∈
      get_history 3650 1 [timeoutSample 100 "A"] ∧
    ∀ hp ∈ get_aggregated_history 3650 1 60 [timeoutSample 100 "A"],
      (hp.avg_latency = 0 ↔
        (∀ s ∈ ([timeoutSample 100 "A"].filter (inWindow 3650 1)).filter
            (fun s2 => bucketOf 60 s2.timestamp == hp.timestamp && s2.host == hp.host),
          s.avg_latency = none) ∨
        ∃ m, sqlAvg ((([timeoutSample 100 "A"].filter (inWindow 3650 1)).filter
            (fun s2 => bucketOf 60 s2.timestamp == hp.timestamp && s2.host == hp.host)).filterMap
            (·.avg_latency)) = some m ∧ pyRound 3 m = 0) :=
  absent_latency_reported_zero 3650 1 60 [timeoutSample 100 "A"]
    (timeoutSample 100 "A") (List.mem_singleton.mpr rfl) (by decide) rfl

/-! ### Custom-range bucketing (C8) -/

theorem customInterval_expand (d1 d2 : Nat) (hle : d1 ≤ d2) :
    customInterval (d1 * 86400) (d2 * 86400 + 86399) 30 = 48 * (d2 - d1) + 47 := by
  unfold customInterval
  have h1 : d2 * 86400 + 86399 - d1 * 86400 = 86400 * (d2 - d1) + 86399 := by omega
  rw [h1]
  have h3 : (86400 * (d2 - d1) + 86399) / 60 = 1440 * (d2 - d1) + 1439 := by omega
  rw [h3]
  have h4 : (1440 * (d2 - d1) + 1439) / 30 = 48 * (d2 - d1) + 47 := by omega
  rw [h4]
  exact Nat.max_eq_right (by omega)

theorem aggregate_filter_host_length (m : Nat) (inw : List Sample) (h : String) :
    ((aggregateRows m inw).filter (fun p => p.host == h)).length =
      ((sortBuckets ((inw.map fun r => (bucketOf m r.timestamp, r.host)).dedup)).filter
        (fun k => k.2 == h)).length := by
  simp only [aggregateRows]
  rw [List.filter_map, List.length_map]
  congr 1

theorem keys_filter_bound (m lo hi : Nat) (hm : 0 < m) (inw : List Sample)
    (hin : ∀ r ∈ inw, lo ≤ r.timestamp ∧ r.timestamp ≤ hi) (h : String) :
    ((sortBuckets ((inw.map fun r => (bucketOf m r.timestamp, r.host)).dedup)).filter
      (fun k => k.2 == h)).length ≤ hi / (m * 60) - lo / (m * 60) + 1 := by
  have hn0 : 0 < m * 60 := by omega
  have hnodup :
      (sortBuckets ((inw.map fun r => (bucketOf m r.timestamp, r.host)).dedup)).Nodup := by
    unfold sortBuckets
    exact (List.perm_insertionSort _ _).nodup_iff.mpr (List.nodup_dedup _)
  have hfil : ((sortBuckets ((inw.map fun r =>
      (bucketOf m r.timestamp, r.host)).dedup)).filter (fun k => k.2 == h)).Nodup :=
    hnodup.filter _
  have horigin : ∀ k ∈ (sortBuckets ((inw.map fun r =>
      (bucketOf m r.timestamp, r.host)).dedup)).filter (fun k => k.2 == h),
      ∃ ts, lo ≤ ts ∧ ts ≤ hi ∧ k.1 = ts / (m * 60) * (m * 60) := by
    intro k hk
    have hk1 := List.mem_of_mem_filter hk
    obtain ⟨r, hr, hkr⟩ := mem_bucketKeys_origin m inw k hk1
    exact ⟨r.timestamp, (hin r hr).1, (hin r hr).2,
      by rw [hkr]; exact bucketOf_eq m r.timestamp⟩
  have hmapnodup : (((sortBuckets ((inw.map fun r =>
      (bucketOf m r.timestamp, r.host)).dedup)).filter (fun k => k.2 == h)).map
        (fun k => k.1 / (m * 60))).Nodup := by
    apply hfil.map_on
    intro x hx y hy hxy
    obtain ⟨tx, _, _, hx1⟩ := horigin x hx
    obtain ⟨ty, _, _, hy1⟩ := horigin y hy
    have hx2 : x.2 = h := by simpa using (List.mem_filter.mp hx).2
    have hy2 : y.2 = h := by simpa using (List.mem_filter.mp hy).2
    have hq : x.1 = y.1 := by
      rw [hx1, hy1] at hxy ⊢
      rw [Nat.mul_div_cancel _ hn0, Nat.mul_div_cancel _ hn0] at hxy
      rw [hxy]
    exact Prod.ext_iff.mpr ⟨hq, hx2.trans hy2.symm⟩
  have hsub : ∀ x ∈ ((sortBuckets ((inw.map fun r =>
      (bucketOf m r.timestamp, r.host)).dedup)).filter (fun k => k.2 == h)).map
        (fun k => k.1 / (m * 60)),
      x ∈ Finset.Icc (lo / (m * 60)) (hi / (m * 60)) := by
    intro x hx
    rw [List.mem_map] at hx
    obtain ⟨k, hk, hkx⟩ := hx
    obtain ⟨ts, hts1, hts2, hk1⟩ := horigin k hk
    rw [← hkx, hk1, Nat.mul_div_cancel _ hn0, Finset.mem_Icc]
    exact ⟨Nat.div_le_div_right hts1, Nat.div_le_div_right hts2⟩
  have hlen : (((sortBuckets ((inw.map fun r =>
      (bucketOf m r.timestamp, r.host)).dedup)).filter (fun k => k.2 == h)).map
        (fun k => k.1 / (m * 60))).length ≤
      (Finset.Icc (lo / (m * 60)) (hi / (m * 60))).card := by
    rw [← List.toFinset_card_of_nodup hmapnodup]
    apply Finset.card_le_card
    intro x hx
    rw [List.mem_toFinset] at hx
    exact hsub x hx
  rw [List.length_map, Nat.card_Icc] at hlen
  generalize hi / (m * 60) = A at hlen ⊢
  generalize lo / (m * 60) = B at hlen ⊢
  omega

/-- C8: the custom-range query expands its calendar dates to
`start 00:00:00 .. end 23:59:59` inclusive, buckets with a width in minutes
of `max(1, floor(total_range_minutes / 30))`, and consequently produces at
most 32 buckets per host, whatever the range length. -/
theorem custom_history_expansion_bound (d1 d2 : Nat) (h : String)
    (rows : List Sample) (hle : d1 ≤ d2) :
    api_custom_history d1 d2 rows =
      get_custom_period_history (d1 * 86400) (d2 * 86400 + 86399) 30 rows ∧
    customInterval (d1 * 86400) (d2 * 86400 + 86399) 30 =
      max 1 ((d2 * 86400 + 86399 - d1 * 86400) / 60 / 30) ∧
    ((api_custom_history d1 d2 rows).filter (fun p => p.host == h)).length ≤ 32 := by
  refine ⟨rfl, rfl, ?_⟩
  have hm := customInterval_expand d1 d2 hle
  unfold api_custom_history get_custom_period_history
  rw [hm, aggregate_filter_host_length]
  refine le_trans (keys_filter_bound (48 * (d2 - d1) + 47) (d1 * 86400)
    (d2 * 86400 + 86399) (by omega) _ ?_ h) ?_
  · intro r hr
    rw [List.mem_filter] at hr
    have h2 := hr.2
    simp only [Bool.and_eq_true, decide_eq_true_eq] at h2
    exact h2
  · have hnval : (48 * (d2 - d1) + 47) * 60 = 2880 * (d2 - d1) + 2820 := by ring
    have hn0 : 0 < (48 * (d2 - d1) + 47) * 60 := by omega
    have hR : d2 * 86400 + 86399 = d1 * 86400 + (86400 * (d2 - d1) + 86399) := by omega
    have hRdiv : (86400 * (d2 - d1) + 86399) / ((48 * (d2 - d1) + 47) * 60) = 30 := by
      have hlow : 30 ≤ (86400 * (d2 - d1) + 86399) / ((48 * (d2 - d1) + 47) * 60) :=
        (Nat.le_div_iff_mul_le hn0).mpr (by rw [hnval]; omega)
      have hhigh : (86400 * (d2 - d1) + 86399) / ((48 * (d2 - d1) + 47) * 60) < 31 :=
        (Nat.div_lt_iff_lt_mul hn0).mpr (by rw [hnval]; omega)
      omega
    have hadd : (d1 * 86400 + (86400 * (d2 - d1) + 86399)) / ((48 * (d2 - d1) + 47) * 60) ≤
        d1 * 86400 / ((48 * (d2 - d1) + 47) * 60) +
        (86400 * (d2 - d1) + 86399) / ((48 * (d2 - d1) + 47) * 60) + 1 := by
      rw [Nat.add_div hn0]
      split <;> omega
    have h5 : (d2 * 86400 + 86399) / ((48 * (d2 - d1) + 47) * 60) ≤
        d1 * 86400 / ((48 * (d2 - d1) + 47) * 60) + 31 := by
      rw [hR]
      refine le_trans hadd ?_
      rw [hRdiv]
    generalize (d2 * 86400 + 86399) / ((48 * (d2 - d1) + 47) * 60) = A at h5 ⊢
    generalize d1 * 86400 / ((48 * (d2 - d1) + 47) * 60) = B at h5 ⊢
    omega

/-- Witness for C8 at a two-day range over a one-sample store. -/
theorem custom_history_expansion_bound_witness :
    api_custom_history 0 1 [upSample 100 "A"] =
      get_custom_period_history (0 * 86400) (1 * 86400 + 86399) 30 [upSample 100 "A"] ∧
    customInterval (0 * 86400) (1 * 86400 + 86399) 30 =
      max 1 ((1 * 86400 + 86399 - 0 * 86400) / 60 / 30) ∧
    ((api_custom_history 0 1 [upSample 100 "A"]).filter
      (fun p => p.host == "A")).length ≤ 32 :=
  custom_history_expansion_bound 0 1 "A" [upSample 100 "A"] (by omega)

end HomeServeur